import Mathlib

/-!
Verification development for the Unify-AI chat route
(`src/app/api/ai-chat/route.ts`).

The development shallowly embeds the route's pure logic:

* `formatResponse`   — the markdown normalizer (route.ts lines 18–44).
  Its four regex cleanup phases are modelled exactly (JavaScript regex
  semantics: leftmost match, greedy quantifiers with backtracking,
  scanning resumes after each match).  The final `remark`
  re-serialization is an external library, not repository code; it is
  modelled as the identity re-serializer and the claims settled against
  this model do not depend on its behaviour.
* `pollLoop` / `sciraPollResult` — the DOM stabilization polling loop of
  `callSciraAPI` (route.ts lines 249–287), over an abstract trace of DOM
  reads (one entry per poll tick; `none` = no response elements,
  `some t` = trimmed innerText of the last response element).
* `callSciraAPISession` — the browser-session lifecycle of
  `callSciraAPI` (route.ts lines 200–296): launch / newContext /
  newPage, the inner try, and the `finally` that closes the browser.
* `processChainedRequest` — the chain orchestrator (route.ts 300–383),
  with the model clients abstracted as oracles and every client
  invocation recorded in a trace.
* `POSTHandler` — the request handler `POST` (route.ts 577–821):
  validation order, the chat-history branch, dispatch and persistence
  events.  The image / uploaded-file / context-mode prompt augmentation
  (route.ts 673–754) only rewrites the outgoing prompt string and is
  not modelled; the dispatch below passes the validated query where the
  source passes the augmented `promptToSend`.
-/

deriving instance DecidableEq for Except

/-- JavaScript `String.prototype.startsWith` (used by the orchestrator's
`firstModel.startsWith("meta-llama")` tests), defined over character
lists so that it evaluates by reduction. -/
def strStartsWith (p s : String) : Bool := p.data.isPrefixOf s.data

/-- JavaScript `\s` / `String.prototype.trim` whitespace class:
space, tab, LF, VT, FF, CR, NBSP, and the Unicode space separators
(U+1680, U+2000–U+200A, U+2028, U+2029, U+202F, U+205F, U+3000, U+FEFF). -/
def isJsWs (c : Char) : Bool :=
  c == ' ' || c == '\t' || c == '\n' || c == '\r' ||
  c.toNat == 0x0b || c.toNat == 0x0c || c.toNat == 0xa0 ||
  c.toNat == 0x1680 ||
  (decide (0x2000 ≤ c.toNat) && decide (c.toNat ≤ 0x200a)) ||
  c.toNat == 0x2028 || c.toNat == 0x2029 || c.toNat == 0x202f ||
  c.toNat == 0x205f || c.toNat == 0x3000 || c.toNat == 0xfeff

/-- JavaScript `String.prototype.trim` over a character list. -/
def trimChars (l : List Char) : List Char :=
  ((l.dropWhile isJsWs).reverse.dropWhile isJsWs).reverse

/-- JavaScript `String.prototype.trim`. -/
def trimJS (s : String) : String :=
  String.mk (trimChars s.data)

/-- Split a character list at newlines: the first component is the list
of newline-terminated lines (without their terminators), the second is
the final unterminated segment.  `joinT` below re-joins the lines. -/
def splitNlP : List Char → List (List Char) × List Char
  | [] => ([], [])
  | c :: rest =>
    let p := splitNlP rest
    if c == '\n' then ([] :: p.1, p.2)
    else
      match p.1 with
      | [] => ([], c :: p.2)
      | t :: ts => ((c :: t) :: ts, p.2)

/-- Re-join newline-terminated lines. -/
def joinT (ts : List (List Char)) : List Char :=
  ts.foldr (fun t acc => t ++ '\n' :: acc) []

/-- A line consisting only of (JS) whitespace. -/
def isBlankLine (l : List Char) : Bool := l.all isJsWs

/-- A line matching `\s*\d+\s*` — only digits, optionally surrounded by
whitespace (the body of a `/^\s*\d+\s*\n/` match, minus the newline). -/
def isDigitLine (l : List Char) : Bool :=
  let t := l.dropWhile isJsWs
  !(t.takeWhile Char.isDigit).isEmpty && (t.dropWhile Char.isDigit).all isJsWs

/-!
Rule 1 of `formatResponse` (route.ts line 20):
`response.replace(/^\s*\d+\s*\n/gm, "\n")`.

Every match of the pattern is anchored at a line start (`^` with the
`m` flag) and ends immediately after a newline, so each match covers a
whole run of complete lines: first the maximal run of whitespace-only
terminated lines (consumed by the leading greedy `\s*`, which also
takes the digit line's leading blanks), then one line of the shape
`\s*\d+\s*` terminated by a newline, then (consumed by the trailing
greedy `\s*\n`, after backtracking to the last newline of the
whitespace run) the maximal run of whitespace-only terminated lines
that follow.  The replacement `"\n"` is one empty terminated line, and
the scan resumes at the line start just after the match.  The
transformation is therefore implemented on the line decomposition.
-/

/-- Try a `/^\s*\d+\s*\n/` match at the current line start: maximal run
of blank terminated lines, then a digit line, then the maximal run of
blank terminated lines.  Returns the remaining lines after the match. -/
def blockAt (ls : List (List Char)) : Option (List (List Char)) :=
  match ls.dropWhile isBlankLine with
  | d :: r => if isDigitLine d then some (r.dropWhile isBlankLine) else none
  | [] => none

/-- Fueled scanner over terminated lines; `fuel ≥ ls.length` always
suffices because every step consumes at least one line. -/
def rule1Go : Nat → List (List Char) → List (List Char)
  | 0, ls => ls
  | fuel + 1, ls =>
    match blockAt ls with
    | some rest => [] :: rule1Go fuel rest
    | none =>
      match ls with
      | [] => []
      | l :: r => l :: rule1Go fuel r

/-- Rule 1 over the terminated lines of the input. -/
def rule1Lines (ls : List (List Char)) : List (List Char) :=
  rule1Go ls.length ls

/-- Rule 1 on a character list: the final unterminated segment is never
part of a match (the pattern requires a trailing newline). -/
def rule1 (l : List Char) : List Char :=
  let p := splitNlP l
  joinT (rule1Lines p.1) ++ p.2

/-!
Rule 2 (route.ts line 22): `cleaned.replace(/\s*\[\d+\]\s*/g, "")`.
The match at a position consumes the maximal whitespace run, then
requires `[` digits `]` immediately after it, then consumes the maximal
whitespace run that follows.
-/

/-- Try a `\s*\[\d+\]\s*` match starting at the head of `l`; returns the
input remaining after the match. -/
def rule2MatchAt (l : List Char) : Option (List Char) :=
  match l.dropWhile isJsWs with
  | '[' :: r2 =>
    if (r2.takeWhile Char.isDigit).isEmpty then none
    else
      match r2.dropWhile Char.isDigit with
      | ']' :: r4 => some (r4.dropWhile isJsWs)
      | _ => none
  | _ => none

def rule2Go : Nat → List Char → List Char
  | 0, l => l
  | _ + 1, [] => []
  | fuel + 1, c :: rest =>
    match rule2MatchAt (c :: rest) with
    | some r => rule2Go fuel r
    | none => c :: rule2Go fuel rest

def rule2 (l : List Char) : List Char := rule2Go l.length l

/-!
Rule 3 (route.ts line 24): `cleaned.replace(/\s+\n/g, "\n")`.
A match at a position requires the maximal whitespace run from that
position to contain a newline at offset ≥ 1; the greedy `\s+`
backtracks so that the match ends at the run's last newline.
-/

/-- Try a `\s+\n` match starting at the head of `l`. -/
def rule3MatchAt (l : List Char) : Option (List Char) :=
  let w := l.takeWhile isJsWs
  if (w.drop 1).contains '\n' then
    some ((w.reverse.takeWhile (fun c => c != '\n')).reverse ++ l.dropWhile isJsWs)
  else none

def rule3Go : Nat → List Char → List Char
  | 0, l => l
  | _ + 1, [] => []
  | fuel + 1, c :: rest =>
    match rule3MatchAt (c :: rest) with
    | some r => '\n' :: rule3Go fuel r
    | none => c :: rule3Go fuel rest

def rule3 (l : List Char) : List Char := rule3Go l.length l

/-!
Rule 4 (route.ts line 26): `cleaned.replace(/\n{3,}/g, "\n\n")`.
-/

def rule4Go : Nat → List Char → List Char
  | 0, l => l
  | _ + 1, [] => []
  | fuel + 1, c :: rest =>
    if c == '\n' then
      let ns := (c :: rest).takeWhile (fun x => x == '\n')
      let r := (c :: rest).dropWhile (fun x => x == '\n')
      if 3 ≤ ns.length then '\n' :: '\n' :: rule4Go fuel r
      else ns ++ rule4Go fuel r
    else c :: rule4Go fuel rest

def rule4 (l : List Char) : List Char := rule4Go l.length l

/-- The markdown normalizer `formatResponse` (route.ts 18–44): the four
regex cleanup phases in order, then the `remark` re-serialization
(external library, modelled as the identity), then `.trim()`. -/
def formatResponse (s : String) : String :=
  String.mk (trimChars (rule4 (rule3 (rule2 (rule1 s.data)))))

/-- All lines of a string (terminated lines plus the final segment). -/
def linesOf (s : String) : List (List Char) :=
  (splitNlP s.data).1 ++ [(splitNlP s.data).2]


/-!
## Scira stabilization polling loop (route.ts 249–287)

One list entry per poll tick: `none` models a tick where
`page.$$(responseSelector)` returned no elements, `some t` models the
trimmed `innerText` of the last response element.  The wall-clock
ceiling (`maxWaitTime / pollInterval` ticks) is the length of the
trace.
-/

inductive PollOutcome
  | stabilized (text : String) (remaining : List (Option String))
  | timedOut (lastText : String)
deriving DecidableEq

/-- Constant `maxStableChecks` (route.ts line 254). -/
def maxStableChecks : Nat := 3

/-- JavaScript `String.prototype.toLowerCase` (ASCII range), defined
over character lists so that it evaluates by reduction. -/
def lowerChar (c : Char) : Char :=
  if 'A' ≤ c ∧ c ≤ 'Z' then Char.ofNat (c.toNat + 32) else c

def lowerStr (s : String) : String := String.mk (s.data.map lowerChar)

/-- The `while` loop of `callSciraAPI` (route.ts 256–282): skip empty or
prompt-echo reads, count consecutive unchanged reads, stop at
`maxStableChecks`, reset the counter and update the tracked text on any
change.  `stabilized` carries the ticks that were *not* consumed. -/
def pollLoop (prompt : String) : List (Option String) → String → Nat → PollOutcome
  | [], lastText, _ => .timedOut lastText
  | none :: rest, lastText, counter => pollLoop prompt rest lastText counter
  | some latest :: rest, lastText, counter =>
    if latest == "" || lowerStr latest == lowerStr prompt then
      pollLoop prompt rest lastText counter
    else if latest == lastText then
      if maxStableChecks ≤ counter + 1 then .stabilized latest rest
      else pollLoop prompt rest lastText (counter + 1)
    else
      pollLoop prompt rest latest 0

/-- The fixed placeholder returned when the ceiling is reached with no
text ever observed (route.ts line 286). -/
def noCompleteResponseMsg : String :=
  "⚠️ No complete response received within the time limit."

/-- The value returned by the polling section of `callSciraAPI`
(route.ts 271–287): the stabilized text normalized, or on timeout the
last observed text (or the placeholder) normalized. -/
def sciraPollResult (prompt : String) (reads : List (Option String)) : String :=
  match pollLoop prompt reads "" 0 with
  | .stabilized t _ => formatResponse t
  | .timedOut last =>
    formatResponse (if last = "" then noCompleteResponseMsg else last)

/-- The text tracked in `lastText` after processing a list of reads
(route.ts 249, 277): updated on every non-empty, non-echo read. -/
def trackedText (prompt : String) : List (Option String) → String → String
  | [], lastText => lastText
  | none :: rest, lastText => trackedText prompt rest lastText
  | some t :: rest, lastText =>
    if t == "" || lowerStr t == lowerStr prompt then trackedText prompt rest lastText
    else trackedText prompt rest t

/-!
## Browser-session lifecycle of `callSciraAPI` (route.ts 170–297)

`launch`, `newContext` and `newPage` happen inside a first `try` whose
`catch` logs and re-throws (route.ts 204–216); the navigation /
polling body runs in a second `try` whose `catch` wraps errors as
`Failed to get response from Scira: …` and whose `finally` awaits
`browser.close().catch(console.error)` (route.ts 218–296).  The three
setup steps and the body are abstracted as oracles; events record what
the session actually did.
-/

structure BrowserEnv where
  launch : Except String Unit
  newContext : Except String Unit
  newPage : Except String Unit
  body : Except String String
  closeFails : Bool

inductive BrowserEvent
  | launched
  | contextCreated
  | pageCreated
  | closeAttempted
  | closeErrorLogged
deriving DecidableEq

/-- The session skeleton of `callSciraAPI`.  Note that the `finally`
belongs to the *second* `try` only: an error thrown by `newContext` or
`newPage` propagates without `browser.close()` ever being called. -/
def callSciraAPISession (env : BrowserEnv) (prompt : String) :
    Except String String × List BrowserEvent :=
  if trimJS prompt = "" then (.error "Prompt must be a non-empty string", [])
  else
    match env.launch with
    | .error e => (.error e, [])
    | .ok _ =>
      match env.newContext with
      | .error e => (.error e, [.launched])
      | .ok _ =>
        match env.newPage with
        | .error e => (.error e, [.launched, .contextCreated])
        | .ok _ =>
          let setup := [BrowserEvent.launched, BrowserEvent.contextCreated,
                        BrowserEvent.pageCreated]
          let closeEvs :=
            if env.closeFails then
              [BrowserEvent.closeAttempted, BrowserEvent.closeErrorLogged]
            else [BrowserEvent.closeAttempted]
          match env.body with
          | .ok s => (.ok s, setup ++ closeEvs)
          | .error e =>
            (.error ("Failed to get response from Scira: " ++ e), setup ++ closeEvs)

/-!
## Chain orchestrator (route.ts 300–383)

The four model clients (`callSciraAPI`, `callDeepSeekR1API`,
`processMetaLlamaModel`, `processOllamaModel`) are abstracted as
oracles from prompt to outcome; `Call` events record each client
invocation together with the prompt it received.
-/

inductive Call
  | scira (prompt : String)
  | deepseek (prompt : String)
  | metaLlama (model : String) (prompt : String)
  | ollama (model : String) (prompt : String)
deriving DecidableEq

structure ClientEnv where
  scira : String → Except String String
  deepseek : String → Except String String
  metaLlama : String → String → Except String String
  ollama : String → String → Except String String

structure ModelStep where
  model : String
  response : String
deriving DecidableEq

/-- The result shape of `processChainedRequest` (timing fields, which
depend on the wall clock, are not modelled). -/
structure ChainResult where
  responses : List ModelStep
  finalOutput : String
  modelUsed : String
deriving DecidableEq

/-- The identifier list shared by the `meta-llama`/local-model branches
of `processChainedRequest` (route.ts 314, 354): in chained mode all of
these go to `processMetaLlamaModel`. -/
def togetherChainListModel (m : String) : Bool :=
  strStartsWith "meta-llama" m || m == "gemma3:1b" || m == "qwen2.5vl:3b" ||
  m == "llama3.2" || m == "qwen2.5-coder:0.5b" || m == "phi:2.7b" ||
  m == "tinyllama"

/-- An identifier the chain orchestrator can dispatch (route.ts 310–318). -/
def resolvableChainModel (m : String) : Bool :=
  m == "scira" || m == "deepseek" || togetherChainListModel m

/-- Step 1 of `processChainedRequest` (route.ts 307–318). -/
def invokeFirstModel (env : ClientEnv) (query firstModel : String) :
    Except String String × List Call :=
  if firstModel == "scira" then (env.scira query, [.scira query])
  else if firstModel == "deepseek" then (env.deepseek query, [.deepseek query])
  else if togetherChainListModel firstModel then
    (env.metaLlama firstModel query, [.metaLlama firstModel query])
  else (.error ("Unsupported first model: " ++ firstModel), [])

/-- The enriched second-stage prompt (route.ts 338–352), built only in
the `secondModel === "deepseek"` branch. -/
def chainedPrompt (query firstModel firstResponse : String) : String :=
  "## Original User Query\n" ++ query ++
  "\n\n## Initial Response from " ++ firstModel ++ "\n" ++ firstResponse ++
  "\n\n## Your Task\nPlease provide a concise and well-structured summary that:\n" ++
  "1. Captures the key points from the initial response\n" ++
  "2. Removes any redundancy or unnecessary details\n" ++
  "3. Maintains accuracy and preserves important information\n" ++
  "4. Is easy to read and understand\n" ++
  "5. Is more concise than the original while preserving meaning\n\n## Your Summary:"

/-- Step 2 of `processChainedRequest` (route.ts 329–358): `scira` and
the meta-llama/local identifiers receive `firstResponse` as-is; only
`deepseek` receives the enriched prompt. -/
def invokeSecondModel (env : ClientEnv) (query firstModel firstResponse secondModel : String) :
    Except String String × List Call :=
  if secondModel == "scira" then (env.scira firstResponse, [.scira firstResponse])
  else if secondModel == "deepseek" then
    let p := chainedPrompt query firstModel firstResponse
    (env.deepseek p, [.deepseek p])
  else if togetherChainListModel secondModel then
    (env.metaLlama secondModel firstResponse, [.metaLlama secondModel firstResponse])
  else (.error ("Unsupported second model: " ++ secondModel), [])

/-- Function `processChainedRequest` (route.ts 300–383): step 1, then step 2 on
step 1's output; any error in either step (including an unsupported
identifier) is wrapped by the surrounding `catch` as
`Chaining failed: …`. -/
def processChainedRequest (env : ClientEnv) (query firstModel secondModel : String) :
    Except String ChainResult × List Call :=
  match invokeFirstModel env query firstModel with
  | (.error e, cs) => (.error ("Chaining failed: " ++ e), cs)
  | (.ok firstResponse, cs1) =>
    match invokeSecondModel env query firstModel firstResponse secondModel with
    | (.error e, cs2) => (.error ("Chaining failed: " ++ e), cs1 ++ cs2)
    | (.ok secondResponse, cs2) =>
      (.ok { responses := [⟨firstModel, firstResponse⟩, ⟨secondModel, secondResponse⟩],
             finalOutput := secondResponse,
             modelUsed := secondModel }, cs1 ++ cs2)

/-!
## Request handler `POST` (route.ts 577–821)

Request-body fields arrive as parsed JSON, so a field can be a string,
number, boolean, null, or absent (`undefined` after destructuring).
`JVal` models the values the handler actually branches on.
`firstModel`/`secondModel` are passed through to the orchestrator
unchanged and are only ever compared against string literals there;
they are modelled as plain strings (a missing field would fail inside
the orchestrator's `try` and surface as the same `Chaining failed`
500).  `conversationId` is modelled as an optional string.
-/

inductive JVal
  | str (s : String)
  | num (n : Int)
  | boolean (b : Bool)
  | null
  | undefined
deriving DecidableEq

/-- JavaScript truthiness of a `JVal`. -/
def jsTruthy : JVal → Bool
  | .str s => s != ""
  | .num n => n != 0
  | .boolean b => b
  | .null => false
  | .undefined => false

/-- The persistence collaborator (Prisma), abstracted as read oracles;
writes are recorded as events. -/
structure Db where
  userExists : String → Bool
  convBelongs : String → String → Bool
  hasAnyConv : String → Bool

structure PostEnv where
  db : Db
  hasTogetherKey : Bool
  clients : ClientEnv

structure ReqBody where
  userEmail : JVal
  query : JVal
  model : JVal
  firstModel : String
  secondModel : String
  conversationId : Option String
  listConversations : JVal

structure HttpResp where
  status : Nat
  error : Option String
deriving DecidableEq

/-- Side effects of the handler: model-client invocations and
persistence writes. -/
inductive Ev
  | client (c : Call)
  | createConversation
  | persistMessage (isUser : Bool) (content : String)
deriving DecidableEq

/-- The model allow-list of the handler (route.ts 662). -/
def modelAllowList : List String :=
  ["scira", "deepseek", "chained",
   "meta-llama/Llama-3.3-70B-Instruct-Turbo-Free", "meta-llama/Llama-Vision-Free",
   "gemma3:1b", "qwen2.5vl:3b", "llama3.2", "qwen2.5-coder:0.5b", "phi:2.7b",
   "tinyllama"]

/-- The empty-query chat-history branch (route.ts 616–655). -/
def historyResponse (env : PostEnv) (email : String) (cid? : Option String) :
    HttpResp × List Ev :=
  match cid? with
  | some cid =>
    if cid != "" && cid != "new" then
      if env.db.convBelongs cid email then ({ status := 200, error := none }, [])
      else ({ status := 404,
              error := some "Conversation not found or does not belong to user" }, [])
    else
      if env.db.hasAnyConv email then ({ status := 200, error := none }, [])
      else ({ status := 200, error := none }, [.createConversation])
  | none =>
    if env.db.hasAnyConv email then ({ status := 200, error := none }, [])
    else ({ status := 200, error := none }, [.createConversation])

/-- Dispatch on the validated model string (route.ts 759–768),
returning the responses to persist, the final output, and the client
calls made.  Errors thrown by any path are caught by the handler's
outer `catch`. -/
def runModel (env : PostEnv) (b : ReqBody) (m q : String) :
    Except String (List ModelStep × String) × List Call :=
  if m == "chained" then
    match processChainedRequest env.clients q b.firstModel b.secondModel with
    | (.error e, cs) => (.error e, cs)
    | (.ok r, cs) => (.ok (r.responses, r.finalOutput), cs)
  else if m == "scira" then
    match env.clients.scira q with
    | .error e => (.error e, [.scira q])
    | .ok r => (.ok ([⟨"scira", r⟩], r), [.scira q])
  else if m == "deepseek" then
    match env.clients.deepseek q with
    | .error e => (.error e, [.deepseek q])
    | .ok r => (.ok ([⟨"deepseek-r1", r⟩], r), [.deepseek q])
  else if m == "meta-llama/Llama-3.3-70B-Instruct-Turbo-Free"
       || m == "meta-llama/Llama-Vision-Free" then
    match env.clients.metaLlama m q with
    | .error e => (.error e, [.metaLlama m q])
    | .ok r => (.ok ([⟨m, r⟩], r), [.metaLlama m q])
  else
    match env.clients.ollama m q with
    | .error e => (.error e, [.ollama m q])
    | .ok r => (.ok ([⟨m, r⟩], r), [.ollama m q])

/-- Conversation resolution before dispatch (route.ts 707–726):
`none` = 404, `some evs` = proceed (with a creation event when a new
conversation is made). -/
def resolveConversation (env : PostEnv) (email : String) (cid? : Option String) :
    Option (List Ev) :=
  match cid? with
  | some cid =>
    if cid != "" && cid != "new" then
      if env.db.convBelongs cid email then some [] else none
    else some [.createConversation]
  | none => some [.createConversation]

/-- Everything after the query is known to be a non-blank string
(route.ts 662–810): model validation, API-key check, conversation
resolution, user-message persistence, dispatch, AI-message
persistence. -/
def handleQuery (env : PostEnv) (b : ReqBody) (email q : String) :
    HttpResp × List Ev :=
  match b.model with
  | .str m =>
    if modelAllowList.contains m then
      if !env.hasTogetherKey then
        ({ status := 500, error := some "TOGETHER API key not configured" }, [])
      else
        match resolveConversation env email b.conversationId with
        | none =>
          ({ status := 404,
             error := some "Conversation not found or does not belong to user" }, [])
        | some evs0 =>
          let evs1 := evs0 ++ [Ev.persistMessage true q]
          match runModel env b m q with
          | (.error _, calls) =>
            ({ status := 500, error := some "Internal server error" },
             evs1 ++ calls.map Ev.client)
          | (.ok (steps, final), calls) =>
            let aiEvs :=
              if m == "chained" then steps.map (fun s => Ev.persistMessage false s.response)
              else [Ev.persistMessage false final]
            ({ status := 200, error := none },
             evs1 ++ calls.map Ev.client ++ aiEvs)
    else ({ status := 400, error := some "Valid model selection is required" }, [])
  | _ => ({ status := 400, error := some "Valid model selection is required" }, [])

/-- The request handler `POST` (route.ts 577–821).  Validation order:
`userEmail` (400), user lookup (404), the `listConversations` shortcut,
the empty-query history branch, then query/model validation and
dispatch.  A truthy non-string `query` makes `query.trim()` throw a
`TypeError`, which the outer `catch` converts to a 500
`Internal server error`; because every falsy or blank query is diverted
to the history branch first, the 400
`Query is required and must be a string` response (route.ts 657–660)
is unreachable for JSON request bodies. -/
def POSTHandler (env : PostEnv) (b : ReqBody) : HttpResp × List Ev :=
  match b.userEmail with
  | .str email =>
    if email = "" then
      ({ status := 400, error := some "Valid userEmail is required" }, [])
    else if !env.db.userExists email then
      ({ status := 404, error := some "User not found" }, [])
    else if b.listConversations = .boolean true then
      ({ status := 200, error := none }, [])
    else
      match b.query with
      | .str q =>
        if trimJS q = "" then historyResponse env email b.conversationId
        else handleQuery env b email q
      | v =>
        if jsTruthy v then ({ status := 500, error := some "Internal server error" }, [])
        else historyResponse env email b.conversationId
  | _ => ({ status := 400, error := some "Valid userEmail is required" }, [])

/-!
## Concrete environments used as witnesses / counterexamples
-/

/-- Clients that always succeed with fixed outputs. -/
def okClients : ClientEnv :=
  { scira := fun _ => .ok "FIRST"
    deepseek := fun _ => .ok "D"
    metaLlama := fun _ _ => .ok "M"
    ollama := fun _ _ => .ok "O" }

/-- Clients whose scraped-model client always fails. -/
def sciraFailClients : ClientEnv :=
  { okClients with scira := fun _ => .error "scira down" }

/-- A handler environment with a known user, conversations and an API
key. -/
def env0 : PostEnv :=
  { db := { userExists := fun _ => true
            convBelongs := fun _ _ => true
            hasAnyConv := fun _ => true }
    hasTogetherKey := true
    clients := okClients }

/-- Trace of the whole chain after a successful first step: the first
step's calls followed by whatever step 2 calls. -/
theorem processChained_trace_ok (env : ClientEnv) (q fm sm fr : String) (cs : List Call)
    (h : invokeFirstModel env q fm = (.ok fr, cs)) :
    (processChainedRequest env q fm sm).2 =
      cs ++ (invokeSecondModel env q fm fr sm).2 := by
  rcases h2 : invokeSecondModel env q fm fr sm with ⟨r, cs2⟩
  simp only [processChainedRequest, h, h2]
  cases r <;> simp

/-- C1 (counterexample): with both clients succeeding, a chained request
`deepseek → scira` invokes the second client with the raw first-step
answer `"D"`, which is not the enriched prompt. -/
theorem chained_enriched_prompt_cex :
    (processChainedRequest okClients "q" "deepseek" "scira").1 =
      .ok ⟨[⟨"deepseek", "D"⟩, ⟨"scira", "FIRST"⟩], "FIRST", "scira"⟩ ∧
    (processChainedRequest okClients "q" "deepseek" "scira").2 =
      [Call.deepseek "q", Call.scira "D"] ∧
    "D" ≠ chainedPrompt "q" "deepseek" "D" :=
  ⟨rfl, rfl, by decide⟩

/-- C1 (amended): after a successful first step, only a `deepseek`
second model receives the enriched prompt; `scira` and every
meta-llama/local-list identifier receive the first-step answer alone. -/
theorem chained_second_prompt (env : ClientEnv) (q fm fr : String) (cs : List Call)
    (h : invokeFirstModel env q fm = (.ok fr, cs)) :
    (processChainedRequest env q fm "deepseek").2 =
      cs ++ [Call.deepseek (chainedPrompt q fm fr)] ∧
    (processChainedRequest env q fm "scira").2 = cs ++ [Call.scira fr] ∧
    ∀ sm, togetherChainListModel sm = true →
      (processChainedRequest env q fm sm).2 = cs ++ [Call.metaLlama sm fr] := by
  refine ⟨?_, ?_, ?_⟩
  · rw [processChained_trace_ok env q fm "deepseek" fr cs h]; rfl
  · rw [processChained_trace_ok env q fm "scira" fr cs h]; rfl
  · intro sm hsm
    rw [processChained_trace_ok env q fm sm fr cs h]
    have h1 : (sm == "scira") = false := by
      cases hs : sm == "scira"
      · rfl
      · exact absurd hsm (by rw [eq_of_beq hs]; decide)
    have h2 : (sm == "deepseek") = false := by
      cases hs : sm == "deepseek"
      · rfl
      · exact absurd hsm (by rw [eq_of_beq hs]; decide)
    simp [invokeSecondModel, h1, h2, hsm]

/-- C1 (witness): concrete application of `chained_second_prompt`. -/
theorem chained_second_prompt_witness :
    (processChainedRequest okClients "q" "deepseek" "deepseek").2 =
      [Call.deepseek "q", Call.deepseek (chainedPrompt "q" "deepseek" "D")] :=
  (chained_second_prompt okClients "q" "deepseek" "D" [Call.deepseek "q"] rfl).1

/-- C2 (counterexample): a chained request whose second model identifier
is unresolvable still performs the first model's client call before the
failure surfaces — the trace is not empty. -/
theorem chain_second_model_validation_cex :
    processChainedRequest okClients "q" "scira" "not-a-model" =
      (.error "Chaining failed: Unsupported second model: not-a-model",
       [Call.scira "q"]) ∧
    [Call.scira "q"] ≠ ([] : List Call) :=
  ⟨by decide, by decide⟩

/-- C2 (amended): the handler's top-level `model` is validated against
the allow-list before any client call, but `firstModel`/`secondModel`
of a chained request are only checked inside the orchestrator: an
unresolvable first model aborts (as a wrapped chaining error, not a
validation response) before any client call, while an unresolvable
second model is detected only after the first model's client has
already been invoked. -/
theorem model_validation_amended :
    (∀ (env : PostEnv) (email q fModel sModel : String) (cid? : Option String)
       (lc mo : JVal),
       email ≠ "" → env.db.userExists email = true → lc ≠ .boolean true →
       trimJS q ≠ "" → (∀ m, mo = .str m → modelAllowList.contains m = false) →
       POSTHandler env ⟨.str email, .str q, mo, fModel, sModel, cid?, lc⟩ =
         ({ status := 400, error := some "Valid model selection is required" }, [])) ∧
    (∀ (cenv : ClientEnv) (q f s : String), resolvableChainModel f = false →
       processChainedRequest cenv q f s =
         (.error ("Chaining failed: " ++ ("Unsupported first model: " ++ f)), [])) ∧
    (∀ (cenv : ClientEnv) (q f s fr : String) (cs : List Call),
       invokeFirstModel cenv q f = (.ok fr, cs) → resolvableChainModel s = false →
       processChainedRequest cenv q f s =
         (.error ("Chaining failed: " ++ ("Unsupported second model: " ++ s)), cs)) := by
  refine ⟨?_, ?_, ?_⟩
  · intro env email q fModel sModel cid? lc mo hne hu hlc hq hmo
    cases mo with
    | str m =>
      have hnm : m ∉ modelAllowList := by
        have := hmo m rfl
        simpa using this
      simp [POSTHandler, hne, hu, hlc, hq, handleQuery, hnm]
    | num n => simp [POSTHandler, hne, hu, hlc, hq, handleQuery]
    | boolean b => simp [POSTHandler, hne, hu, hlc, hq, handleQuery]
    | null => simp [POSTHandler, hne, hu, hlc, hq, handleQuery]
    | undefined => simp [POSTHandler, hne, hu, hlc, hq, handleQuery]
  · intro cenv q f s hf
    simp only [resolvableChainModel, Bool.or_eq_false_iff] at hf
    simp [processChainedRequest, invokeFirstModel, hf.1.1, hf.1.2, hf.2]
  · intro cenv q f s fr cs h1 hs
    simp only [resolvableChainModel, Bool.or_eq_false_iff] at hs
    simp [processChainedRequest, h1, invokeSecondModel, hs.1.1, hs.1.2, hs.2]

/-- C2 (witness): concrete applications of `model_validation_amended`. -/
theorem model_validation_amended_witness :
    POSTHandler env0 ⟨.str "u@e.com", .str "hi", .str "bogus", "", "", none, .undefined⟩ =
      ({ status := 400, error := some "Valid model selection is required" }, []) ∧
    processChainedRequest okClients "q" "scira" "bogus" =
      (.error ("Chaining failed: " ++ ("Unsupported second model: " ++ "bogus")),
       [Call.scira "q"]) :=
  ⟨model_validation_amended.1 env0 "u@e.com" "hi" "" "" none .undefined (.str "bogus")
      (by decide) rfl (by decide) (by decide)
      (fun m h => by cases h; decide),
   model_validation_amended.2.2 okClients "q" "scira" "bogus" "FIRST" [Call.scira "q"]
      rfl (by decide)⟩

/-- C3: if step 1 fails, the whole chain aborts with the single wrapped
`Chaining failed` error and the trace is exactly step 1's calls — step
2's client is never invoked. -/
theorem chain_step1_failure_skips_step2 (env : ClientEnv) (q f s e : String)
    (cs : List Call) (h : invokeFirstModel env q f = (.error e, cs)) :
    processChainedRequest env q f s = (.error ("Chaining failed: " ++ e), cs) := by
  simp [processChainedRequest, h]

/-- C3 (witness): a failing scraped-model first step aborts the chain
without any second-model call. -/
theorem chain_step1_failure_skips_step2_witness :
    processChainedRequest sciraFailClients "q" "scira" "deepseek" =
      (.error "Chaining failed: scira down", [Call.scira "q"]) :=
  chain_step1_failure_skips_step2 sciraFailClients "q" "scira" "deepseek"
    "scira down" [Call.scira "q"] rfl

/-- A run where the launch succeeds and `newContext` fails. -/
def browserEnvContextFail : BrowserEnv :=
  { launch := .ok (), newContext := .error "context boom", newPage := .ok ()
    body := .ok "answer", closeFails := false }

/-- A run where everything succeeds but `browser.close()` fails. -/
def browserEnvCloseFail : BrowserEnv :=
  { launch := .ok (), newContext := .ok (), newPage := .ok ()
    body := .ok "answer", closeFails := true }

/-- C4: when the launch succeeds but creating the context fails, the
error propagates with no `close` ever attempted (the `finally` guards
only the second `try`) — the browser session leaks; by contrast, on
body paths the close is attempted and its own failure is only logged,
never re-thrown. -/
theorem browser_close_leak :
    callSciraAPISession browserEnvContextFail "hi" =
      (.error "context boom", [.launched]) ∧
    BrowserEvent.closeAttempted ∉ [BrowserEvent.launched] ∧
    callSciraAPISession browserEnvCloseFail "hi" =
      (.ok "answer", [.launched, .contextCreated, .pageCreated,
                      .closeAttempted, .closeErrorLogged]) :=
  ⟨rfl, by decide, rfl⟩

/-- C5: the stabilization loop's step behaviour — a non-empty, non-echo
read equal to the tracked text bumps the run-length counter and, as
soon as it reaches `maxStableChecks` (3), the loop stops with that text
and polls no further; below the threshold the loop continues with the
bumped counter; a changed read resets the counter to 0 and updates the
tracked text; and a stabilized text is returned normalized. -/
theorem scira_stabilization (prompt lastText latest : String) (counter : Nat)
    (reads : List (Option String))
    (hne : latest ≠ "") (hecho : lowerStr latest ≠ lowerStr prompt) :
    (latest = lastText → maxStableChecks ≤ counter + 1 →
      pollLoop prompt (some latest :: reads) lastText counter =
        .stabilized latest reads) ∧
    (latest = lastText → counter + 1 < maxStableChecks →
      pollLoop prompt (some latest :: reads) lastText counter =
        pollLoop prompt reads lastText (counter + 1)) ∧
    (latest ≠ lastText →
      pollLoop prompt (some latest :: reads) lastText counter =
        pollLoop prompt reads latest 0) ∧
    (∀ (rs : List (Option String)) (t : String) (rem : List (Option String)),
      pollLoop prompt rs "" 0 = .stabilized t rem →
      sciraPollResult prompt rs = formatResponse t) := by
  have hb1 : (latest == "") = false := by simp [hne]
  have hb2 : (lowerStr latest == lowerStr prompt) = false := by simp [hecho]
  refine ⟨?_, ?_, ?_, ?_⟩
  · intro he hc
    subst he
    simp [pollLoop, hb1, hb2, hc]
  · intro he hc
    subst he
    simp [pollLoop, hb1, hb2, Nat.not_le.mpr hc]
  · intro hne2
    have hb3 : (latest == lastText) = false := by simp [hne2]
    simp [pollLoop, hb1, hb2, hb3]
  · intro rs t rem h
    simp [sciraPollResult, h]

/-- C5 (witness): with the counter at 2, one more identical read
stabilizes immediately, leaving the remaining ticks unconsumed. -/
theorem scira_stabilization_witness :
    pollLoop "q" [some "abc", some "zzz"] "abc" 2 =
      .stabilized "abc" [some "zzz"] :=
  (scira_stabilization "q" "abc" "abc" 2 [some "zzz"] (by decide) (by decide)).1
    rfl (by decide)

/-- On a timed-out run the reported text is exactly the tracked
`lastText` after all reads. -/
theorem pollLoop_timedOut_tracked (prompt : String) :
    ∀ (reads : List (Option String)) (lastText : String) (counter : Nat)
      (l : String),
      pollLoop prompt reads lastText counter = .timedOut l →
      l = trackedText prompt reads lastText := by
  intro reads
  induction reads with
  | nil =>
    intro lt c l h
    simp [pollLoop] at h
    simp [trackedText, h]
  | cons r rest ih =>
    intro lt c l h
    cases r with
    | none =>
      simp only [pollLoop] at h
      simpa [trackedText] using ih lt c l h
    | some t =>
      by_cases h1 : (t == "" || lowerStr t == lowerStr prompt) = true
      · simp only [pollLoop, h1, if_true] at h
        simpa [trackedText, h1] using ih lt c l h
      · have h1' := eq_false_of_ne_true h1
        by_cases h2 : (t == lt) = true
        · by_cases h3 : maxStableChecks ≤ c + 1
          · simp [pollLoop, h1', h2, h3] at h
          · simp only [pollLoop, h1', h2, if_false, if_true, Bool.false_eq_true,
              h3, if_neg] at h
            have := ih lt (c + 1) l h
            simpa [trackedText, h1', eq_of_beq h2] using this
        · have h2' := eq_false_of_ne_true h2
          simp only [pollLoop, h1', h2', Bool.false_eq_true, if_false] at h
          simpa [trackedText, h1'] using ih t 0 l h

/-- C6: when the reads are exhausted without stabilization the client
returns normally: the result is the last observed (tracked) text,
normalized, or the fixed placeholder if no text was ever observed. -/
theorem scira_timeout_partial (prompt : String) (reads : List (Option String))
    (l : String) (h : pollLoop prompt reads "" 0 = .timedOut l) :
    l = trackedText prompt reads "" ∧
    sciraPollResult prompt reads =
      formatResponse (if l = "" then noCompleteResponseMsg else l) :=
  ⟨pollLoop_timedOut_tracked prompt reads "" 0 l h, by simp [sciraPollResult, h]⟩

/-- C6 (witness): two identical reads never reach the stability
threshold, so the run times out and returns the last text normalized. -/
theorem scira_timeout_partial_witness :
    "a" = trackedText "q" [some "a", some "a"] "" ∧
    sciraPollResult "q" [some "a", some "a"] =
      formatResponse (if "a" = "" then noCompleteResponseMsg else "a") :=
  scira_timeout_partial "q" [some "a", some "a"] "a" (by decide)

/-- C7 (counterexample): an empty-string query with a valid user is not
rejected with a 400 — it is served as a chat-history fetch (200) with
no model client invoked. -/
theorem query_validation_cex :
    POSTHandler env0 ⟨.str "u@e.com", .str "", .str "scira", "", "", none, .undefined⟩ =
      ({ status := 200, error := none }, []) ∧
    ({ status := 200, error := none } : HttpResp) ≠
      { status := 400, error := some "Query is required and must be a string" } :=
  ⟨rfl, by decide⟩

/-- C7 (amended): for a valid user, a blank-string or falsy query is
served as a chat-history fetch (status 200, or 404 for a foreign
conversation id, with no client call and no message persisted), while a
truthy non-string query makes `query.trim()` throw and yields a 500
`Internal server error`; the 400 `Query is required and must be a
string` response is never produced. -/
theorem query_validation_amended :
    (∀ (env : PostEnv) (email q : String) (mo lc : JVal) (f s : String)
       (cid? : Option String),
       email ≠ "" → env.db.userExists email = true → lc ≠ .boolean true →
       trimJS q = "" →
       POSTHandler env ⟨.str email, .str q, mo, f, s, cid?, lc⟩ =
         historyResponse env email cid?) ∧
    (∀ (env : PostEnv) (email : String) (v mo lc : JVal) (f s : String)
       (cid? : Option String),
       email ≠ "" → env.db.userExists email = true → lc ≠ .boolean true →
       (∀ q, v ≠ .str q) → jsTruthy v = false →
       POSTHandler env ⟨.str email, v, mo, f, s, cid?, lc⟩ =
         historyResponse env email cid?) ∧
    (∀ (env : PostEnv) (email : String) (v mo lc : JVal) (f s : String)
       (cid? : Option String),
       email ≠ "" → env.db.userExists email = true → lc ≠ .boolean true →
       (∀ q, v ≠ .str q) → jsTruthy v = true →
       POSTHandler env ⟨.str email, v, mo, f, s, cid?, lc⟩ =
         ({ status := 500, error := some "Internal server error" }, [])) ∧
    (∀ (env : PostEnv) (email : String) (cid? : Option String),
       (historyResponse env email cid?).1.status = 200 ∨
       (historyResponse env email cid?).1.status = 404) ∧
    (∀ (env : PostEnv) (email : String) (cid? : Option String) (e : Ev),
       e ∈ (historyResponse env email cid?).2 → e = .createConversation) := by
  refine ⟨?_, ?_, ?_, ?_, ?_⟩
  · intro env email q mo lc f s cid? hne hu hlc htrim
    simp [POSTHandler, hne, hu, hlc, htrim]
  · intro env email v mo lc f s cid? hne hu hlc hv hf
    cases v with
    | str q => exact absurd rfl (hv q)
    | num n => simp [POSTHandler, hne, hu, hlc, hf]
    | boolean bb => simp [POSTHandler, hne, hu, hlc, hf]
    | null => simp [POSTHandler, hne, hu, hlc, jsTruthy]
    | undefined => simp [POSTHandler, hne, hu, hlc, jsTruthy]
  · intro env email v mo lc f s cid? hne hu hlc hv ht
    cases v with
    | str q => exact absurd rfl (hv q)
    | num n => simp [POSTHandler, hne, hu, hlc, ht]
    | boolean bb => simp [POSTHandler, hne, hu, hlc, ht]
    | null => simp [jsTruthy] at ht
    | undefined => simp [jsTruthy] at ht
  · intro env email cid?
    rcases cid? with _ | cid <;> simp only [historyResponse] <;> split_ifs <;> simp
  · intro env email cid? e
    rcases cid? with _ | cid <;> simp only [historyResponse] <;> split_ifs <;> simp

/-- C7 (witness): concrete applications of `query_validation_amended`. -/
theorem query_validation_amended_witness :
    POSTHandler env0 ⟨.str "u@e.com", .str " ", .str "x", "", "", none, .undefined⟩ =
      historyResponse env0 "u@e.com" none ∧
    POSTHandler env0 ⟨.str "u@e.com", .num 123, .str "scira", "", "", none, .undefined⟩ =
      ({ status := 500, error := some "Internal server error" }, []) :=
  ⟨query_validation_amended.1 env0 "u@e.com" " " (.str "x") .undefined "" "" none
      (by decide) rfl (by decide) (by decide),
   query_validation_amended.2.2.1 env0 "u@e.com" (.num 123) (.str "scira") .undefined
      "" "" none (by decide) rfl (by decide) (fun q h => by cases h) (by decide)⟩

/-- A handler environment in which no user exists. -/
def envNoUser : PostEnv :=
  { env0 with db := { userExists := fun _ => false
                      convBelongs := fun _ _ => true
                      hasAnyConv := fun _ => true } }

/-- C10: `userEmail` is validated before anything else — a missing or
non-string (or empty) `userEmail` yields 400 `Valid userEmail is
required`, and an email with no matching user yields 404
`User not found`; in both cases the trace is empty (no client call, no
persistence) regardless of the query and model fields, so query/model
validation is never reached. -/
theorem user_email_first :
    (∀ (env : PostEnv) (b : ReqBody),
       (∀ s, b.userEmail = .str s → s = "") →
       POSTHandler env b =
         ({ status := 400, error := some "Valid userEmail is required" }, [])) ∧
    (∀ (env : PostEnv) (b : ReqBody) (email : String),
       b.userEmail = .str email → email ≠ "" →
       env.db.userExists email = false →
       POSTHandler env b =
         ({ status := 404, error := some "User not found" }, [])) := by
  constructor
  · intro env b h
    rcases b with ⟨ue, qv, mo, f, s, cid, lc⟩
    cases ue with
    | str e =>
      have he : e = "" := h e rfl
      simp [POSTHandler, he]
    | num n => simp [POSTHandler]
    | boolean bb => simp [POSTHandler]
    | null => simp [POSTHandler]
    | undefined => simp [POSTHandler]
  · intro env b email he hne hu
    rcases b with ⟨ue, qv, mo, f, s, cid, lc⟩
    simp only at he
    subst he
    simp [POSTHandler, hne, hu]

/-- C10 (witness): a numeric `userEmail` is rejected 400 and an unknown
user 404, both with an empty trace, even with a bad query present. -/
theorem user_email_first_witness :
    POSTHandler env0 ⟨.num 5, .boolean true, .str "scira", "", "", none, .undefined⟩ =
      ({ status := 400, error := some "Valid userEmail is required" }, []) ∧
    POSTHandler envNoUser
        ⟨.str "ghost@e.com", .str "hello", .str "scira", "", "", none, .undefined⟩ =
      ({ status := 404, error := some "User not found" }, []) :=
  ⟨user_email_first.1 env0 _ (fun s h => nomatch h),
   user_email_first.2 envNoUser _ "ghost@e.com" rfl (by decide) rfl⟩

/-!
## C9: digit-only lines and rule 1
-/

/-- The first element not dropped by `dropWhile` fails the predicate. -/
theorem dropWhile_head_false {α} (p : α → Bool) :
    ∀ (l : List α) (x : α) (xs : List α), l.dropWhile p = x :: xs → p x = false := by
  intro l
  induction l with
  | nil => intro x xs h; simp at h
  | cons a t ih =>
    intro x xs h
    by_cases hp : p a = true
    · rw [List.dropWhile_cons_of_pos hp] at h
      exact ih x xs h
    · rw [List.dropWhile_cons_of_neg hp] at h
      cases h
      simpa using hp

/-- A digit line contains a non-whitespace character, so it is not a
blank line. -/
theorem digit_not_blank (l : List Char) (h : isDigitLine l = true) :
    isBlankLine l = false := by
  rcases ht : l.dropWhile isJsWs with _ | ⟨x, xs⟩
  · rw [isDigitLine] at h
    simp only [ht] at h
    simp at h
  · have hx : isJsWs x = false := dropWhile_head_false isJsWs l x xs ht
    have hmem : x ∈ l :=
      ((List.dropWhile_suffix isJsWs).sublist.subset) (ht ▸ List.mem_cons_self x xs)
    cases hb : isBlankLine l
    · rfl
    · exfalso
      rw [isBlankLine, List.all_eq_true] at hb
      have := hb x hmem
      rw [hx] at this
      exact Bool.false_ne_true this

/-- If no rule-1 match starts at this line, the line is not a digit
line. -/
theorem blockAt_none_head (l : List Char) (r : List (List Char))
    (h : blockAt (l :: r) = none) : isDigitLine l = false := by
  by_cases hd : isDigitLine l = true
  · exfalso
    have hb : isBlankLine l = false := digit_not_blank l hd
    rw [blockAt, List.dropWhile_cons_of_neg (by simp [hb])] at h
    have h' : (if isDigitLine l = true then some (r.dropWhile isBlankLine)
               else none) = none := h
    rw [if_pos hd] at h'
    cases h'
  · simpa using hd

/-- A rule-1 match consumes at least one line, and the remainder is made
of lines of the input. -/
theorem blockAt_some_facts (ls rest : List (List Char))
    (h : blockAt ls = some rest) :
    rest.length < ls.length ∧ ∀ x ∈ rest, x ∈ ls := by
  rw [blockAt] at h
  rcases hd : ls.dropWhile isBlankLine with _ | ⟨d, r⟩ <;> rw [hd] at h
  · cases h
  · have h' : (if isDigitLine d = true then some (r.dropWhile isBlankLine)
               else none) = some rest := h
    by_cases hdig : isDigitLine d = true
    · rw [if_pos hdig] at h'
      cases h'
      have hsub1 : List.Sublist (d :: r) ls := by
        rw [← hd]
        exact (List.dropWhile_suffix isBlankLine).sublist
      constructor
      · calc (r.dropWhile isBlankLine).length
            ≤ r.length := (List.dropWhile_suffix isBlankLine).sublist.length_le
          _ < (d :: r).length := by simp
          _ ≤ ls.length := hsub1.length_le
      · intro x hx
        exact hsub1.subset (List.mem_cons_of_mem d
          ((List.dropWhile_suffix isBlankLine).sublist.subset hx))
    · rw [if_neg hdig] at h'
      cases h'

/-- Soundness of the rule-1 scanner: with sufficient fuel, every output
line is either the inserted blank line or a non-digit line of the
input; in particular no output line is a digit line. -/
theorem rule1Go_sound :
    ∀ (fuel : Nat) (ls : List (List Char)), ls.length ≤ fuel →
      ∀ l ∈ rule1Go fuel ls, isDigitLine l = false ∧ (l = [] ∨ l ∈ ls) := by
  intro fuel
  induction fuel with
  | zero =>
    intro ls hle l hl
    have : ls = [] := List.length_eq_zero.mp (Nat.le_zero.mp hle)
    subst this
    simp [rule1Go] at hl
  | succ n ih =>
    intro ls hle l hl
    rcases hb : blockAt ls with _ | rest
    · cases ls with
      | nil => simp [rule1Go, hb] at hl
      | cons a r =>
        simp only [rule1Go, hb] at hl
        rcases List.mem_cons.mp hl with h1 | h1
        · subst h1
          exact ⟨blockAt_none_head l r hb, Or.inr (List.mem_cons_self l r)⟩
        · have hr : r.length ≤ n := by
            have := hle
            simp only [List.length_cons] at this
            omega
          rcases ih r hr l h1 with ⟨hd, hm⟩
          exact ⟨hd, hm.imp id (List.mem_cons_of_mem a)⟩
    · simp only [rule1Go, hb] at hl
      rcases List.mem_cons.mp hl with h1 | h1
      · subst h1
        exact ⟨by decide, Or.inl rfl⟩
      · rcases blockAt_some_facts ls rest hb with ⟨hlen, hsub⟩
        have hr : rest.length ≤ n := by omega
        rcases ih rest hr l h1 with ⟨hd, hm⟩
        exact ⟨hd, hm.imp id (fun hx => hsub l hx)⟩

/-- The lines produced by `splitNlP` contain no newline. -/
theorem splitNlP_no_nl :
    ∀ (l : List Char),
      (∀ t ∈ (splitNlP l).1, ('\n' : Char) ∉ t) ∧ ('\n' : Char) ∉ (splitNlP l).2 := by
  intro l
  induction l with
  | nil => simp [splitNlP]
  | cons c rest ih =>
    by_cases hc : c = '\n'
    · subst hc
      simp only [splitNlP, beq_self_eq_true, if_pos]
      refine ⟨?_, ih.2⟩
      intro t ht
      rcases List.mem_cons.mp ht with h1 | h1
      · subst h1; simp
      · exact ih.1 t h1
    · have hcb : (c == '\n') = false := by simp [hc]
      simp only [splitNlP, hcb, Bool.false_eq_true, if_false]
      rcases hp : (splitNlP rest).1 with _ | ⟨t, ts⟩
      · refine ⟨by simp, ?_⟩
        simp only [List.mem_cons]
        rintro (h1 | h1)
        · exact hc h1.symm
        · exact ih.2 h1
      · constructor
        · intro t' ht'
          rcases List.mem_cons.mp ht' with h1 | h1
          · subst h1
            simp only [List.mem_cons]
            rintro (h2 | h2)
            · exact hc h2.symm
            · exact ih.1 t (hp ▸ List.mem_cons_self t ts) h2
          · exact ih.1 t' (hp ▸ List.mem_cons_of_mem t h1)
        · exact ih.2

/-- A newline-free list splits as a single final segment. -/
theorem splitNlP_of_no_nl :
    ∀ (f : List Char), ('\n' : Char) ∉ f → splitNlP f = ([], f) := by
  intro f
  induction f with
  | nil => intro _; rfl
  | cons c rest ih =>
    intro h
    have hc : c ≠ '\n' := fun hcc => h (hcc ▸ List.mem_cons_self c rest)
    have hr := ih (fun hm => h (List.mem_cons_of_mem c hm))
    have hcb : (c == '\n') = false := by simp [hc]
    simp [splitNlP, hcb, hr]

/-- Prepending one newline-free terminated line to an input shifts the
split by that line. -/
theorem splitNlP_cons_line :
    ∀ (t rest : List Char), ('\n' : Char) ∉ t →
      splitNlP (t ++ '\n' :: rest) =
        (t :: (splitNlP rest).1, (splitNlP rest).2) := by
  intro t
  induction t with
  | nil => intro rest _; simp [splitNlP]
  | cons c t' ih =>
    intro rest h
    have hc : c ≠ '\n' := fun hcc => h (hcc ▸ List.mem_cons_self c t')
    have hcb : (c == '\n') = false := by simp [hc]
    have hr := ih rest (fun hm => h (List.mem_cons_of_mem c hm))
    simp [splitNlP, hcb, hr]

/-- Splitting inverts `joinT` on newline-free lines. -/
theorem splitNlP_joinT :
    ∀ (ts : List (List Char)) (f : List Char),
      (∀ t ∈ ts, ('\n' : Char) ∉ t) → ('\n' : Char) ∉ f →
      splitNlP (joinT ts ++ f) = (ts, f) := by
  intro ts
  induction ts with
  | nil => intro f _ hf; simpa [joinT] using splitNlP_of_no_nl f hf
  | cons t ts' ih =>
    intro f hts hf
    have h1 : joinT (t :: ts') ++ f = t ++ '\n' :: (joinT ts' ++ f) := by
      simp [joinT]
    rw [h1, splitNlP_cons_line t (joinT ts' ++ f) (hts t (List.mem_cons_self t ts')),
        ih f (fun x hx => hts x (List.mem_cons_of_mem t hx)) hf]

/-- C9 (amended): rule 1 strips every newline-terminated digit-only
line: no newline-terminated line of `rule1 P` is a digit-only line.  (A
digit-only final line with no trailing newline is outside the pattern
and survives — see the counterexample.) -/
theorem rule1_digit_lines_removed (l : List Char) :
    ∀ t ∈ (splitNlP (rule1 l)).1, isDigitLine t = false := by
  intro t ht
  have hs := splitNlP_no_nl l
  have hlines : ∀ x ∈ rule1Lines (splitNlP l).1, ('\n' : Char) ∉ x := by
    intro x hx
    rcases (rule1Go_sound (splitNlP l).1.length (splitNlP l).1 le_rfl x hx).2 with h1 | h1
    · subst h1; simp
    · exact hs.1 x h1
  rw [rule1, splitNlP_joinT (rule1Lines (splitNlP l).1) (splitNlP l).2 hlines hs.2] at ht
  exact (rule1Go_sound (splitNlP l).1.length (splitNlP l).1 le_rfl t ht).1

/-- C9 (witness): concrete application of `rule1_digit_lines_removed` —
the surviving line `keep` of `"12\nkeep\n7\n"` is not a digit line. -/
theorem rule1_digit_lines_removed_witness :
    isDigitLine ['k', 'e', 'e', 'p'] = false :=
  rule1_digit_lines_removed "12\nkeep\n7\n".data ['k', 'e', 'e', 'p'] (by decide)

/-- C9 (counterexample): the input `"abc\n123"` contains a digit-only
(final) line, and that very line is still present in the normalizer's
output — bare digit lines are stripped only when a newline terminates
them. -/
theorem digit_final_line_cex :
    ['1', '2', '3'] ∈ linesOf "abc\n123" ∧
    isDigitLine ['1', '2', '3'] = true ∧
    ['1', '2', '3'] ∈ linesOf (formatResponse "abc\n123") :=
  ⟨by decide, by decide, by decide⟩

-- sanity checks of the regex model (concrete evaluations)
example : formatResponse "abc\n\n\n123\n" = "abc" := by decide
example : formatResponse "abc\n123" = "abc\n123" := by decide
example : formatResponse "see [1] and [23] now" = "seeandnow" := by decide
example : rule3 "a  \nb".data = "a\nb".data := by decide
example : rule1 "1\n2\nx".data = "\n\nx".data := by decide
example : rule1 "  \n12\nx".data = "\nx".data := by decide
example : rule1 "5\n\n12\nx".data = "\n\nx".data := by decide
example : rule2 "a[1[2]3]b".data = "a[13]b".data := by decide
